import Mathlib

/-!
Verification of `src/experimental/eip5792/actions/sendCalls.ts` (viem).

The file embeds the `sendCalls` action shallowly: the per-call
normalization, the chain-id precedence, the account/chain defaulting,
the request assembly and the dispatch/error-translation paths are
translated from the TypeScript source.  External collaborators that
live outside the provided source (`parseAccount`, `numberToHex`,
`getTransactionError`, the transport retry layer) are modelled from the
specification, as marked in their doc comments.  The agent/transport is
represented by a script: a list of per-attempt response functions, one
consumed per request attempt, so that the number of attempts made by
`sendCalls` is observable in the returned remainder of the script.
-/

namespace SendCallsModel

/-- A chain descriptor; only its `id` is consulted by `sendCalls`. -/
structure Chain where
  id : Nat
  deriving DecidableEq, Repr

/-- An account object with an address, as produced by account resolution. -/
structure Account where
  address : String
  deriving DecidableEq, Repr

/-- An account reference: either a bare address or an account object. -/
inductive AccountSource where
  | address (addr : String)
  | account (a : Account)
  deriving DecidableEq, Repr

/-- Modelled from the spec: the account-resolution collaborator
`resolveAccount(accountRef) -> Account` (`parseAccount` in the source,
which lives outside the provided files).  Given an address it wraps it
into a concrete account object; given an account object it returns it. -/
def parseAccount : AccountSource → Account
  | .address addr => ⟨addr⟩
  | .account a => a

/-- Modelled from the spec: `toCanonicalHex(number) -> hexString`
(`numberToHex` in the source, outside the provided files): the canonical
minimal lowercase hexadecimal text form with a `0x` prefix
(e.g. `69420 ↦ "0x10f2c"`, `0 ↦ "0x0"`). -/
def numberToHex (n : Nat) : String :=
  "0x" ++ String.mk (Nat.toDigits 16 n)

/-- One call of a batch, after TypeScript field access: every field is
optional at runtime (`Call` in the source is a duck-typed union read via
optional fields).  The interface description `abi` is kept opaque as a
string; `value` is the transfer amount (a non-negative big integer). -/
structure Call where
  chain : Option Chain := none
  chainId : Option Nat := none
  to_ : Option String := none
  value : Option Nat := none
  abi : Option String := none
  functionName : Option String := none
  args : Option (List String) := none
  data : Option String := none
  deriving DecidableEq, Repr

/-- A normalized call in wire form (`{chainId, data, to, value}`). -/
structure NormalizedCall where
  chainId : String
  data : Option String
  to_ : Option String
  value : Option String
  deriving DecidableEq, Repr

/-- An opaque capability map, passed through untouched. -/
abbrev Capabilities := List (String × String)

/-- Context attached by the error translator: the spread of the original
parameters overridden with the resolved `account` and with
`chain: parameters.chain!` (the raw parameter, per the source). -/
structure TransactionErrorContext where
  account : Account
  chain : Option Chain
  calls : List Call
  capabilities : Option Capabilities
  deriving DecidableEq, Repr

/-- The failure taxonomy observable from `sendCalls`:
`accountNotFound` (AccountNotFoundError), `chainNotFound`
(ChainNotFoundError), `encoding` (a failure of the encoding collaborator,
propagated unmodified with its payload), and `transaction`
(the translated transaction error wrapping a raw dispatch failure). -/
inductive SendCallsError where
  | accountNotFound
  | chainNotFound
  | encoding (e : String)
  | transaction (raw : String) (ctx : TransactionErrorContext)
  deriving DecidableEq, Repr

/-- Modelled from the spec: the error translator (`getTransactionError`
in the source, outside the provided files) converts a raw dispatch
failure into a domain transaction error carrying the attached context. -/
def getTransactionError (raw : String) (ctx : TransactionErrorContext) :
    SendCallsError :=
  .transaction raw ctx

/-- The raw JavaScript `TypeError` raised when `chain!.id` is evaluated
with `chain` undefined (`numberToHex(chain!.id)` in the source). -/
def typeErrorUndefinedId : String :=
  "TypeError: Cannot read properties of undefined (reading id)"

/-- The encoding collaborator `encodeFunctionData`: from an interface
description, a function name and arguments to payload bytes, or a
failure.  It is a parameter of the model (it lives outside the provided
source); `sendCalls` only propagates whatever it does. -/
def EncodeFn : Type :=
  String → Option String → Option (List String) → Except String String

/-- The client: an optional ambient account and an optional ambient
chain (`client.account`, `client.chain`). -/
structure Client where
  account : Option AccountSource := none
  chain : Option Chain := none
  deriving DecidableEq, Repr

/-- The parameters of `sendCalls` (`SendCallsParameters`). -/
structure SendCallsParams where
  account : Option AccountSource := none
  capabilities : Option Capabilities := none
  chain : Option Chain := none
  version : Option String := none
  calls : List Call := []
  deriving DecidableEq, Repr

/-- The assembled outbound request envelope
(`method: wallet_sendCalls`, its single params entry). -/
structure SendCallsRequest where
  calls : List NormalizedCall
  capabilities : Option Capabilities
  chainId : String
  from_ : String
  version : String

/-- One scripted agent response: what one request attempt returns. -/
def AgentResponse : Type :=
  SendCallsRequest → Except String String

/-- The effective chain id of a call:
`call.chain?.id ?? call.chainId ?? chain?.id` (nullish coalescing,
so a present descriptor wins even when its id is `0`). -/
def effectiveChainId (chain : Option Chain) (call : Call) : Option Nat :=
  ((call.chain.map Chain.id).orElse fun _ => call.chainId).orElse
    fun _ => chain.map Chain.id

/-- One step of the normalization map, per call:
chain-id resolution and falsy check (`if (!chainId) throw`), payload
resolution (`call.abi ? encodeFunctionData(...) : call.data`), and the
wire conversion `{chainId, data, to, value}` with the falsy check
`call.value ? numberToHex(call.value) : undefined`. -/
def normalizeCall (encode : EncodeFn) (chain : Option Chain) (call : Call) :
    Except SendCallsError NormalizedCall :=
  match effectiveChainId chain call with
  | none => .error .chainNotFound
  | some chainId =>
    if chainId = 0 then .error .chainNotFound
    else
      match
        match call.abi with
        | some a =>
          match encode a call.functionName call.args with
          | .ok d => Except.ok (some d)
          | .error e => Except.error (SendCallsError.encoding e)
        | none => Except.ok call.data
      with
      | .error e => .error e
      | .ok data =>
        .ok { chainId := numberToHex chainId
              data := data
              to_ := call.to_
              value :=
                match call.value with
                | some v => if v = 0 then none else some (numberToHex v)
                | none => none }

/-- `parameters.calls.map(...)`: left to right, the first thrown error
aborts the whole map. -/
def normalizeCalls (encode : EncodeFn) (chain : Option Chain) :
    List Call → Except SendCallsError (List NormalizedCall)
  | [] => .ok []
  | call :: rest =>
    match normalizeCall encode chain call with
    | .error e => .error e
    | .ok nc =>
      match normalizeCalls encode chain rest with
      | .error e => .error e
      | .ok ncs => .ok (nc :: ncs)

/-- Modelled from the spec: the transport layer under `client.request`
(outside the provided source) with `retryCount` extra retries: each
attempt consumes one scripted response; a success returns immediately,
a failure is retried while retries remain.  The remaining script is
returned, so the number of attempts made is `script.length - rest.length`. -/
def runWithRetry (req : SendCallsRequest) :
    List AgentResponse → Nat → Except String String × List AgentResponse
  | [], _ => (.error "transport: no response", [])
  | r :: rest, retryCount =>
    match r req, retryCount with
    | .ok v, _ => (.ok v, rest)
    | .error e, 0 => (.error e, rest)
    | .error _, n + 1 => runWithRetry req rest n

/-- The `try { return await client.request(...) } catch` block of the
source: dispatch the assembled request with `{ retryCount: 0 }` and, on
a raw failure, translate it with `getTransactionError` and the given
context. -/
def dispatchRequest (req : SendCallsRequest) (script : List AgentResponse)
    (ctx : TransactionErrorContext) :
    Except SendCallsError String × List AgentResponse :=
  match runWithRetry req script 0 with
  | (.ok id, rest) => (.ok id, rest)
  | (.error err, rest) => (.error (getTransactionError err ctx), rest)

/-- The `sendCalls` action, translated line by line from the source:
account defaulting and presence check, chain defaulting, version default
`"1.0"`, the normalization map, the request assembly inside `try`
(where `numberToHex(chain!.id)` raises a `TypeError` when `chain` is
undefined, caught and translated like any dispatch failure), the
dispatch with `{ retryCount: 0 }`, and the catch translating the raw
failure via `getTransactionError` with context
`{...parameters, account, chain: parameters.chain!}`.
Returns the outcome together with the unconsumed part of the agent
script. -/
def sendCalls (encode : EncodeFn) (client : Client)
    (script : List AgentResponse) (parameters : SendCallsParams) :
    Except SendCallsError String × List AgentResponse :=
  match parameters.account.orElse fun _ => client.account with
  | none => (.error .accountNotFound, script)
  | some source =>
    match normalizeCalls encode (parameters.chain.orElse fun _ => client.chain)
        parameters.calls with
    | .error e => (.error e, script)
    | .ok calls =>
      match parameters.chain.orElse fun _ => client.chain with
      | none =>
        (.error (getTransactionError typeErrorUndefinedId
          { account := parseAccount source, chain := parameters.chain
            calls := parameters.calls
            capabilities := parameters.capabilities }), script)
      | some c =>
        dispatchRequest
          { calls := calls, capabilities := parameters.capabilities
            chainId := numberToHex c.id
            from_ := (parseAccount source).address
            version := parameters.version.getD "1.0" }
          script
          { account := parseAccount source, chain := parameters.chain
            calls := parameters.calls
            capabilities := parameters.capabilities }

/-! Concrete collaborators and inputs used by witnesses and
counterexamples. -/

/-- An encoding collaborator that always succeeds. -/
def encOk : EncodeFn := fun _ _ _ => .ok "0xenc"

/-- An encoding collaborator that always fails. -/
def encFail : EncodeFn := fun _ _ _ => .error "encoding failed"

/-- An agent script with one successful response. -/
def agentOk : List AgentResponse := [fun _ => .ok "0xbatchid"]

/-- An agent script whose every attempt faults. -/
def agentFault : List AgentResponse :=
  [fun _ => .error "rejected", fun _ => .error "rejected"]

/-- A call carrying both a chain descriptor (id 5) and a bare chain id 7. -/
def callBothChains : Call := { chain := some ⟨5⟩, chainId := some 7 }

/-- A raw call with no chain information of its own. -/
def callNoChain : Call := { to_ := some "0xD" }

/-- A structured call (interface + function + args) on chain id 1. -/
def callStructured : Call :=
  { to_ := some "0xC", chainId := some 1, abi := some "erc20"
    functionName := some "transfer", args := some ["0xE", "1"] }

/-- A raw call with payload bytes and no chain of its own. -/
def callRaw1 : Call := { to_ := some "0xAAA", data := some "0xdeadbeef" }

/-- A raw call transferring 5 wei. -/
def callValueFive : Call := { to_ := some "0xB", value := some 5 }

/-- The wire form of `callValueFive` under batch chain id 1. -/
def ncValueFive : NormalizedCall :=
  { chainId := "0x1", data := none, to_ := some "0xB", value := some "0x5" }

/-! Helper lemmas shared between claims. -/

/-- With an encoding collaborator that never fails, the only error a
single-call normalization can produce is `chainNotFound`. -/
theorem normalizeCall_error_of_encode_ok (encode : EncodeFn)
    (chain : Option Chain) (call : Call) (e : SendCallsError)
    (henc : ∀ a fn args, ∃ d, encode a fn args = Except.ok d)
    (h : normalizeCall encode chain call = .error e) :
    e = SendCallsError.chainNotFound := by
  unfold normalizeCall at h
  rcases hc : effectiveChainId chain call with _ | cid
  · rw [hc] at h
    simp at h
    exact h.symm
  · rcases ha : call.abi with _ | a
    · rw [hc, ha] at h
      by_cases h0 : cid = 0
      · subst h0
        simp at h
        exact h.symm
      · simp [h0] at h
    · obtain ⟨d, hd⟩ := henc a call.functionName call.args
      rw [hc, ha] at h
      by_cases h0 : cid = 0
      · subst h0
        simp at h
        exact h.symm
      · simp [h0, hd] at h

/-- A call whose effective chain id is absent or `0` fails normalization
with `chainNotFound`, whatever the encoding collaborator does. -/
theorem normalizeCall_chainNotFound (encode : EncodeFn)
    (chain : Option Chain) (call : Call)
    (h : effectiveChainId chain call = none ∨
      effectiveChainId chain call = some 0) :
    normalizeCall encode chain call = .error .chainNotFound := by
  unfold normalizeCall
  rcases h with h | h <;> rw [h]
  rfl

/-- With a never-failing encoding collaborator, a batch containing a
call with no resolvable chain id normalizes to the `chainNotFound`
error. -/
theorem normalizeCalls_chainNotFound (encode : EncodeFn)
    (chain : Option Chain) (calls : List Call)
    (henc : ∀ a fn args, ∃ d, encode a fn args = Except.ok d)
    (hbad : ∃ call ∈ calls,
      effectiveChainId chain call = none ∨
      effectiveChainId chain call = some 0) :
    normalizeCalls encode chain calls = .error .chainNotFound := by
  induction calls with
  | nil => obtain ⟨c, hc, _⟩ := hbad; exact absurd hc (List.not_mem_nil c)
  | cons head rest ih =>
    obtain ⟨c, hc, hbadc⟩ := hbad
    rcases List.mem_cons.mp hc with rfl | hmem
    · unfold normalizeCalls
      rw [normalizeCall_chainNotFound encode chain c hbadc]
    · unfold normalizeCalls
      rcases hh : normalizeCall encode chain head with e | nc
      · rw [normalizeCall_error_of_encode_ok encode chain head e henc hh]
      · rw [ih ⟨c, hmem, hbadc⟩]

/-- With retry count `0`, the transport consumes exactly the head of
the response script, whatever the outcomes are. -/
theorem runWithRetry_zero_tail (req : SendCallsRequest)
    (script : List AgentResponse) :
    (runWithRetry req script 0).2 = script.tail := by
  cases script with
  | nil => rfl
  | cons r rest =>
    unfold runWithRetry
    cases r req <;> rfl

/-- C4: the effective chain id of a call is resolved with precedence:
the call's embedded chain descriptor's id first, then the call's bare
chain-id field, then the batch-level default chain's id — in particular
a present descriptor wins over a present bare chain id — and a
successfully normalized call carries the canonical hex of exactly that
resolved id on the wire. -/
theorem c4_chain_precedence (chain : Option Chain) (call : Call) :
    (∀ c, call.chain = some c → effectiveChainId chain call = some c.id) ∧
    (call.chain = none → ∀ n, call.chainId = some n →
      effectiveChainId chain call = some n) ∧
    (call.chain = none → call.chainId = none →
      effectiveChainId chain call = chain.map Chain.id) ∧
    (∀ (encode : EncodeFn) (nc : NormalizedCall),
      normalizeCall encode chain call = .ok nc →
      ∃ cid, effectiveChainId chain call = some cid ∧
        nc.chainId = numberToHex cid) := by
  refine ⟨?_, ?_, ?_, ?_⟩
  · intro c hchain
    unfold effectiveChainId
    rw [hchain]
    rfl
  · intro h1 n h2
    unfold effectiveChainId
    rw [h1, h2]
    rfl
  · intro h1 h2
    unfold effectiveChainId
    rw [h1, h2]
    rcases chain <;> rfl
  · intro encode nc h
    unfold normalizeCall at h
    rcases hc : effectiveChainId chain call with _ | cid
    · rw [hc] at h
      simp at h
    · rw [hc] at h
      by_cases h0 : cid = 0
      · subst h0
        simp at h
      · refine ⟨cid, rfl, ?_⟩
        rcases ha : call.abi with _ | a
        · rw [ha] at h
          simp [h0] at h
          subst h
          rfl
        · rcases he : encode a call.functionName call.args with e | d
          · rw [ha] at h
            simp [h0, he] at h
          · rw [ha] at h
            simp [h0, he] at h
            subst h
            rfl

/-- C4 witness: on a call carrying both a chain descriptor (id 5) and a
bare chain id 7, under batch default chain id 9, the descriptor's id
wins. -/
theorem c4_chain_precedence_witness :
    effectiveChainId (some ⟨9⟩) callBothChains = some 5 :=
  (c4_chain_precedence (some ⟨9⟩) callBothChains).1 ⟨5⟩ rfl

/-- C5: with no explicit account parameter and no ambient client
account, `sendCalls` fails with the account-missing error before any
normalization: the result does not depend on the encoding collaborator
and the agent script is returned untouched (no attempt is consumed). -/
theorem c5_account_missing (encode : EncodeFn) (client : Client)
    (script : List AgentResponse) (p : SendCallsParams)
    (hp : p.account = none) (hc : client.account = none) :
    sendCalls encode client script p = (.error .accountNotFound, script) := by
  unfold sendCalls
  rw [hp, hc]
  rfl

/-- C5 witness: a concrete invocation with no account anywhere fails
with the account-missing error and an untouched agent script. -/
theorem c5_account_missing_witness :
    sendCalls encOk { account := none, chain := some ⟨1⟩ } agentOk
      { calls := [callNoChain] } = (.error .accountNotFound, agentOk) :=
  c5_account_missing encOk { account := none, chain := some ⟨1⟩ } agentOk
    { calls := [callNoChain] } rfl rfl

/-- C10: a call whose effective chain id resolves to `0` — from the
descriptor, the bare chain-id field or the batch default — is rejected
with the chain-missing error by the falsy presence check, and every
successfully normalized call's wire chain id is the hex of a nonzero
resolved id, so chain id 0 never reaches the wire. -/
theorem c10_chain_zero_rejected (encode : EncodeFn) (chain : Option Chain)
    (call : Call) :
    ((call.chain = some ⟨0⟩ ∨ (call.chain = none ∧ call.chainId = some 0) ∨
      (call.chain = none ∧ call.chainId = none ∧ chain = some ⟨0⟩)) →
      normalizeCall encode chain call = .error .chainNotFound) ∧
    (∀ nc, normalizeCall encode chain call = .ok nc →
      ∃ cid, cid ≠ 0 ∧ effectiveChainId chain call = some cid ∧
        nc.chainId = numberToHex cid) := by
  constructor
  · intro h
    refine normalizeCall_chainNotFound encode chain call (Or.inr ?_)
    unfold effectiveChainId
    rcases h with h | ⟨h1, h2⟩ | ⟨h1, h2, h3⟩
    · rw [h]
      rfl
    · rw [h1, h2]
      rfl
    · rw [h1, h2, h3]
      rfl
  · intro nc h
    unfold normalizeCall at h
    rcases hc : effectiveChainId chain call with _ | cid
    · rw [hc] at h
      simp at h
    · rw [hc] at h
      by_cases h0 : cid = 0
      · subst h0
        simp at h
      · refine ⟨cid, h0, rfl, ?_⟩
        rcases ha : call.abi with _ | a
        · rw [ha] at h
          simp [h0] at h
          subst h
          rfl
        · rcases he : encode a call.functionName call.args with e | d
          · rw [ha] at h
            simp [h0, he] at h
          · rw [ha] at h
            simp [h0, he] at h
            subst h
            rfl

/-- C10 witness: a call with no chain of its own under batch default
chain id 0 is rejected with the chain-missing error. -/
theorem c10_chain_zero_rejected_witness :
    normalizeCall encOk (some ⟨0⟩) callNoChain = .error .chainNotFound :=
  (c10_chain_zero_rejected encOk (some ⟨0⟩) callNoChain).1
    (Or.inr (Or.inr ⟨rfl, rfl, rfl⟩))

/-- The errors a single-call normalization can produce are only
`chainNotFound` and `encoding` failures, never a translated transaction
error. -/
theorem normalizeCall_error_shape (encode : EncodeFn) (chain : Option Chain)
    (call : Call) (e : SendCallsError)
    (h : normalizeCall encode chain call = .error e) :
    e = SendCallsError.chainNotFound ∨
      ∃ s, e = SendCallsError.encoding s := by
  unfold normalizeCall at h
  rcases hc : effectiveChainId chain call with _ | cid
  · rw [hc] at h
    simp at h
    exact Or.inl h.symm
  · rw [hc] at h
    by_cases h0 : cid = 0
    · subst h0
      simp at h
      exact Or.inl h.symm
    · rcases ha : call.abi with _ | a
      · rw [ha] at h
        simp [h0] at h
      · rcases he : encode a call.functionName call.args with s | d
        · rw [ha] at h
          simp [h0, he] at h
          exact Or.inr ⟨s, h.symm⟩
        · rw [ha] at h
          simp [h0, he] at h

/-- The errors of the normalization map are only `chainNotFound` and
`encoding` failures. -/
theorem normalizeCalls_error_shape (encode : EncodeFn) (chain : Option Chain)
    (calls : List Call) (e : SendCallsError)
    (h : normalizeCalls encode chain calls = .error e) :
    e = SendCallsError.chainNotFound ∨
      ∃ s, e = SendCallsError.encoding s := by
  induction calls with
  | nil =>
    unfold normalizeCalls at h
    simp at h
  | cons head rest ih =>
    unfold normalizeCalls at h
    rcases hh : normalizeCall encode chain head with e2 | nc
    · rw [hh] at h
      simp at h
      subst h
      exact normalizeCall_error_shape encode chain head e2 hh
    · rw [hh] at h
      rcases hr : normalizeCalls encode chain rest with e2 | ncs
      · rw [hr] at h
        simp at h
        subst h
        exact ih hr
      · rw [hr] at h
        simp at h

/-- The shape of a successful single-call normalization: some nonzero
resolved chain id in canonical hex, some payload, the destination
carried through unchanged, and the value present exactly when nonzero. -/
theorem normalizeCall_ok_shape (encode : EncodeFn) (chain : Option Chain)
    (call : Call) (nc : NormalizedCall)
    (h : normalizeCall encode chain call = .ok nc) :
    ∃ cid data, cid ≠ 0 ∧ effectiveChainId chain call = some cid ∧
      nc = { chainId := numberToHex cid, data := data, to_ := call.to_
             value :=
               match call.value with
               | some v => if v = 0 then none else some (numberToHex v)
               | none => none } := by
  unfold normalizeCall at h
  rcases hc : effectiveChainId chain call with _ | cid
  · rw [hc] at h
    simp at h
  · rw [hc] at h
    by_cases h0 : cid = 0
    · subst h0
      simp at h
    · rcases ha : call.abi with _ | a
      · rw [ha] at h
        simp [h0] at h
        exact ⟨cid, call.data, h0, rfl, h.symm⟩
      · rcases he : encode a call.functionName call.args with s | d
        · rw [ha] at h
          simp [h0, he] at h
        · rw [ha] at h
          simp [h0, he] at h
          exact ⟨cid, some d, h0, rfl, h.symm⟩

/-- A dispatch with retry count `0` consumes exactly the head of the
agent script: one attempt, never a second. -/
theorem dispatchRequest_tail (req : SendCallsRequest)
    (script : List AgentResponse) (ctx : TransactionErrorContext) :
    (dispatchRequest req script ctx).2 = script.tail := by
  have h := runWithRetry_zero_tail req script
  unfold dispatchRequest
  rcases hrun : runWithRetry req script 0 with ⟨res, rest⟩
  rw [hrun] at h
  rcases res with err | id
  · exact h
  · exact h

/-- Whatever transaction error a dispatch produces carries exactly the
context it was given. -/
theorem dispatchRequest_error_ctx (req : SendCallsRequest)
    (script : List AgentResponse) (ctx : TransactionErrorContext)
    (raw : String) (ctx2 : TransactionErrorContext)
    (h : (dispatchRequest req script ctx).1
      = .error (.transaction raw ctx2)) :
    ctx2 = ctx := by
  unfold dispatchRequest at h
  rcases hrun : runWithRetry req script 0 with ⟨res, rest⟩
  rw [hrun] at h
  rcases res with err | id
  · simp [getTransactionError] at h
    exact h.2.symm
  · simp at h

/-- C1: the claim says a batch in which every call supplies its own
chain succeeds without a batch-level chain.  The code does not: with
every call carrying its own chain id, an account supplied, a
never-failing encoder and an agent ready to answer successfully,
`sendCalls` still fails — `numberToHex(chain!.id)` dereferences the
absent batch chain inside the `try` block, the `TypeError` is caught
and wrapped as a transaction error, and the agent script is returned
untouched (the request is never dispatched). -/
theorem c1_no_batch_chain_type_error :
    sendCalls encOk { account := none, chain := none } agentOk
      { account := some (.address "0xA"),
        calls := [{ to_ := some "0xC", chainId := some 1 }] }
      = (.error (.transaction typeErrorUndefinedId
          { account := ⟨"0xA"⟩, chain := none
            calls := [{ to_ := some "0xC", chainId := some 1 }]
            capabilities := none }), agentOk) := rfl

/-- C2 counterexample: a call with a present transfer amount of zero
normalizes with the value field absent, not the canonical hex of zero
(`numberToHex 0 = "0x0"`): the falsy check collapses zero to absent. -/
theorem c2_zero_value_dropped :
    normalizeCall encOk (some ⟨1⟩) { to_ := some "0xB", value := some 0 }
      = .ok { chainId := numberToHex 1, data := none, to_ := some "0xB"
              value := none } ∧
    numberToHex 0 = "0x0" := ⟨rfl, rfl⟩

/-- C2 amended: in a successfully normalized call the value field is
absent exactly when the source transfer amount is absent or zero, and a
present nonzero amount appears in canonical hex form — an absent amount
stays absent, but a present zero is coerced to absent, not to a
zero-valued hex string. -/
theorem c2_value_presence (encode : EncodeFn) (chain : Option Chain)
    (call : Call) (nc : NormalizedCall)
    (h : normalizeCall encode chain call = .ok nc) :
    (nc.value = none ↔ call.value = none ∨ call.value = some 0) ∧
    (∀ v, call.value = some v → v ≠ 0 → nc.value = some (numberToHex v)) := by
  obtain ⟨cid, data, h0, hc, hnc⟩ := normalizeCall_ok_shape encode chain call nc h
  subst hnc
  constructor
  · rcases hv : call.value with _ | v
    · simp [hv]
    · by_cases hv0 : v = 0
      · subst hv0
        simp [hv]
      · simp [hv, hv0]
  · intro v hv hv0
    simp [hv, hv0]

/-- C2 witness: a transfer amount of 5 appears as its canonical hex. -/
theorem c2_value_presence_witness :
    ncValueFive.value = some (numberToHex 5) :=
  (c2_value_presence encOk (some ⟨1⟩) callValueFive ncValueFive (by rfl)).2
    5 rfl (by decide)

/-- C3 counterexample: with no explicit chain parameter and an ambient
client chain of id 1, a rejected dispatch yields a transaction error
whose context carries `chain := none` — the raw parameter — and not the
resolved ambient chain, contradicting the claim. -/
theorem c3_context_lacks_resolved_chain :
    (sendCalls encOk { chain := some ⟨1⟩ } agentFault
        { account := some (.address "0xA"), calls := [callNoChain] }).1
      = .error (.transaction "rejected"
          { account := ⟨"0xA"⟩, chain := none
            calls := [callNoChain], capabilities := none }) ∧
    (none : Option Chain) ≠ some ⟨1⟩ := ⟨rfl, by simp⟩

/-- C3 amended: every transaction error produced by `sendCalls` carries
a context holding the resolved account, the raw `parameters.chain`
(undefined when no explicit chain was passed — not the ambient client
chain), and the original calls and capabilities. -/
theorem c3_error_context (encode : EncodeFn) (client : Client)
    (script : List AgentResponse) (p : SendCallsParams)
    (src : AccountSource) (raw : String) (ctx : TransactionErrorContext)
    (hacc : p.account.orElse (fun _ => client.account) = some src)
    (h : (sendCalls encode client script p).1
      = .error (.transaction raw ctx)) :
    ctx = { account := parseAccount src, chain := p.chain
            calls := p.calls, capabilities := p.capabilities } := by
  unfold sendCalls at h
  rw [hacc] at h
  rcases hn : normalizeCalls encode (p.chain.orElse fun _ => client.chain)
      p.calls with e | ncs
  · rw [hn] at h
    simp at h
    subst h
    rcases normalizeCalls_error_shape encode _ p.calls _ hn with h1 | ⟨s, h1⟩ <;>
      simp at h1
  · rw [hn] at h
    rcases hch : p.chain.orElse fun _ => client.chain with _ | c
    · rw [hch] at h
      simp [getTransactionError] at h
      exact h.2.symm
    · rw [hch] at h
      exact dispatchRequest_error_ctx _ script _ raw ctx h

/-- C3 witness: at a concrete rejected dispatch, the attached context
is exactly the resolved account plus the raw parameters. -/
theorem c3_error_context_witness :
    ({ account := ⟨"0xA"⟩, chain := none, calls := [callNoChain]
       capabilities := none } : TransactionErrorContext)
      = { account := parseAccount (.address "0xA"), chain := none
          calls := [callNoChain], capabilities := none } :=
  c3_error_context encOk { chain := some ⟨1⟩ } agentFault
    { account := some (.address "0xA"), calls := [callNoChain] }
    (.address "0xA") "rejected"
    { account := ⟨"0xA"⟩, chain := none, calls := [callNoChain]
      capabilities := none }
    rfl rfl

/-- C6 counterexample: a batch whose second call has no resolvable
chain at any precedence level but whose first, chain-carrying,
structured call fails encoding does not fail with the chain-missing
error: the earlier encoding failure wins (normalization is left to
right), contradicting the claim as stated.  No dispatch occurs either
way. -/
theorem c6_encoding_preempts_chain_missing :
    effectiveChainId none callNoChain = none ∧
    (sendCalls encFail { account := none, chain := none } agentOk
        { account := some (.address "0xA"),
          calls := [callStructured, callNoChain] })
      = (.error (.encoding "encoding failed"), agentOk) ∧
    SendCallsError.encoding "encoding failed" ≠ .chainNotFound :=
  ⟨rfl, rfl, by simp⟩

/-- C6 amended: when the account resolves, the encoding collaborator
never fails, and some call's chain id resolves at no precedence level,
`sendCalls` fails with the chain-missing error during normalization and
the agent script is returned untouched — the agent is never invoked and
no partial submission occurs.  (When an earlier call's encoding fails,
that failure preempts the chain-missing error; dispatch still never
happens.) -/
theorem c6_chain_missing (encode : EncodeFn) (client : Client)
    (script : List AgentResponse) (p : SendCallsParams)
    (src : AccountSource)
    (hacc : p.account.orElse (fun _ => client.account) = some src)
    (henc : ∀ a fn args, ∃ d, encode a fn args = Except.ok d)
    (hbad : ∃ call ∈ p.calls,
      effectiveChainId (p.chain.orElse fun _ => client.chain) call = none ∨
      effectiveChainId (p.chain.orElse fun _ => client.chain) call
        = some 0) :
    sendCalls encode client script p = (.error .chainNotFound, script) := by
  unfold sendCalls
  rw [hacc, normalizeCalls_chainNotFound encode _ p.calls henc hbad]

/-- C6 witness: one call with no chain anywhere fails the whole batch
with the chain-missing error, leaving the agent script untouched. -/
theorem c6_chain_missing_witness :
    sendCalls encOk { account := none, chain := none } agentOk
      { account := some (.address "0xA"), calls := [callNoChain] }
      = (.error .chainNotFound, agentOk) :=
  c6_chain_missing encOk { account := none, chain := none } agentOk
    { account := some (.address "0xA"), calls := [callNoChain] }
    (.address "0xA") rfl (fun _ _ _ => ⟨"0xenc", rfl⟩)
    ⟨callNoChain, by simp, Or.inl rfl⟩

/-- C7: a successful normalization preserves length and index order:
the output at index `i` is exactly the single-call normalization of the
input at index `i` (which depends only on that call, the encoding
collaborator and the batch default chain) — no reordering, no
deduplication. -/
theorem c7_normalize_preserves_order (encode : EncodeFn)
    (chain : Option Chain) (calls : List Call) (out : List NormalizedCall)
    (h : normalizeCalls encode chain calls = .ok out) :
    out.length = calls.length ∧
    ∀ (i : Nat) (hi : i < calls.length) (ho : i < out.length),
      normalizeCall encode chain (calls.get ⟨i, hi⟩)
        = .ok (out.get ⟨i, ho⟩) := by
  induction calls generalizing out with
  | nil =>
    unfold normalizeCalls at h
    simp at h
    subst h
    exact ⟨rfl, fun i hi => absurd hi (by simp)⟩
  | cons head rest ih =>
    unfold normalizeCalls at h
    rcases hh : normalizeCall encode chain head with e | nc
    · rw [hh] at h
      simp at h
    · rw [hh] at h
      rcases hr : normalizeCalls encode chain rest with e | ncs
      · rw [hr] at h
        simp at h
      · rw [hr] at h
        simp at h
        subst h
        obtain ⟨hlen, hidx⟩ := ih ncs hr
        refine ⟨by simp [hlen], ?_⟩
        intro i hi ho
        cases i with
        | zero => exact hh
        | succ n =>
          exact hidx n (Nat.lt_of_succ_lt_succ hi) (Nat.lt_of_succ_lt_succ ho)

/-- C7 witness: at index 0 of a two-call batch, the output is the
normalization of the first input call. -/
theorem c7_normalize_preserves_order_witness :
    normalizeCall encOk (some ⟨1⟩) callRaw1
      = .ok { chainId := numberToHex 1, data := some "0xdeadbeef"
              to_ := some "0xAAA", value := none } :=
  (c7_normalize_preserves_order encOk (some ⟨1⟩) [callRaw1, callNoChain]
      [{ chainId := numberToHex 1, data := some "0xdeadbeef"
         to_ := some "0xAAA", value := none },
       { chainId := numberToHex 1, data := none, to_ := some "0xD"
         value := none }] (by rfl)).2
    0 (by decide) (by decide)

/-- C8: a failure of the encoding collaborator propagates to the caller
unmodified: a structured call whose chain resolves but whose encoding
fails normalizes to exactly the collaborator's error, and `sendCalls`
surfaces a normalization-time encoding error as is — outside the
`try`/`catch`, so it is not re-wrapped into the transaction error, and
the agent script is returned untouched (no dispatch). -/
theorem c8_encoding_error_propagates (encode : EncodeFn) (client : Client)
    (script : List AgentResponse) (p : SendCallsParams)
    (chain : Option Chain) (call : Call) (a e : String) :
    (∀ cid, effectiveChainId chain call = some cid → cid ≠ 0 →
      call.abi = some a → encode a call.functionName call.args = .error e →
      normalizeCall encode chain call = .error (.encoding e)) ∧
    (∀ src, p.account.orElse (fun _ => client.account) = some src →
      normalizeCalls encode (p.chain.orElse fun _ => client.chain) p.calls
        = .error (.encoding e) →
      sendCalls encode client script p = (.error (.encoding e), script)) := by
  constructor
  · intro cid hc h0 ha he
    unfold normalizeCall
    rw [hc, ha]
    simp [h0, he]
  · intro src hacc hn
    unfold sendCalls
    rw [hacc, hn]

/-- C8 witness: a concrete batch with one structured call whose
encoding fails surfaces exactly the collaborator's error. -/
theorem c8_encoding_error_propagates_witness :
    sendCalls encFail { chain := some ⟨1⟩ } agentOk
      { account := some (.address "0xA"), calls := [callStructured] }
      = (.error (.encoding "encoding failed"), agentOk) :=
  (c8_encoding_error_propagates encFail { chain := some ⟨1⟩ } agentOk
      { account := some (.address "0xA"), calls := [callStructured] }
      (some ⟨1⟩) callStructured "erc20" "encoding failed").2
    (.address "0xA") rfl rfl

/-- C9: `sendCalls` dispatches with automatic retries disabled
(`retryCount 0`): it never consumes more than one agent attempt, and
whenever an invocation reaches dispatch — for every agent script,
faulting ones included — exactly the head attempt of the script is
consumed, never a second. -/
theorem c9_single_attempt (encode : EncodeFn) (client : Client)
    (script : List AgentResponse) (p : SendCallsParams) :
    ((sendCalls encode client script p).2 = script ∨
      (sendCalls encode client script p).2 = script.tail) ∧
    (∀ src c ncs,
      p.account.orElse (fun _ => client.account) = some src →
      p.chain.orElse (fun _ => client.chain) = some c →
      normalizeCalls encode (some c) p.calls = .ok ncs →
      (sendCalls encode client script p).2 = script.tail) := by
  constructor
  · unfold sendCalls
    rcases hacc : p.account.orElse fun _ => client.account with _ | src
    · exact Or.inl rfl
    · rcases hn : normalizeCalls encode (p.chain.orElse fun _ => client.chain)
          p.calls with e | ncs
      · exact Or.inl rfl
      · rcases hch : p.chain.orElse fun _ => client.chain with _ | c
        · exact Or.inl rfl
        · exact Or.inr (dispatchRequest_tail _ script _)
  · intro src c ncs hacc hch hn
    unfold sendCalls
    rw [hacc, hch, hn]
    exact dispatchRequest_tail _ script _

/-- C9 witness: across a two-entry all-faulting agent script, exactly
the first attempt is consumed: the remainder is the script's tail. -/
theorem c9_single_attempt_witness :
    (sendCalls encOk { chain := some ⟨1⟩ } agentFault
        { account := some (.address "0xA"), calls := [callNoChain] }).2
      = agentFault.tail :=
  (c9_single_attempt encOk { chain := some ⟨1⟩ } agentFault
      { account := some (.address "0xA"), calls := [callNoChain] }).2
    (.address "0xA") ⟨1⟩
    [{ chainId := numberToHex 1, data := none, to_ := some "0xD"
       value := none }]
    rfl rfl rfl

end SendCallsModel
